import Mathlib

/-!
Shallow embedding of the invoice-processing pipeline of `src/main1.py`
(a Flask service: header discovery, PDF total extraction, proportional
allocation by price group, master UPC lookup, CSV row emission).

Modelling conventions, used throughout:
* pandas/Python floats are modelled as rationals (`ℚ`); a missing cell (NaN)
  is `none`; the non-finite results of a float division by zero (NaN or an
  infinity) are collapsed to `none` as well.
* `pandas.sort_values` is modelled as a stable sort (`List.insertionSort`);
  the default numpy quicksort gives no stability guarantee, but it is
  deterministic and behaves stably on small inputs, and the spec treats the
  resulting order as the intended one.
* file I/O and exceptions that escape `process_excel_file` (unreadable
  files, a missing template sheet) are outside the model; the four job-level
  failure paths that the function itself takes (header not found, companion
  PDF missing, amount extraction failure, template headers missing) all
  `print` and `return None`, which is modelled as the `none` result.
-/

namespace FlaskInvoice

/-- A cell value of an output row: the Python code mixes strings, floats and
the integer 1 in its row lists, so cells are a sum of those. The empty string
is the blank cell. -/
inductive Cell where
  | str (s : String)
  | num (q : ℚ)
  | int (n : Int)
deriving DecidableEq, Repr

/-- The blank cell `''` that rows are initialised with. -/
def blank : Cell := Cell.str ""

/-- One line-item row of the input spreadsheet, carrying the three columns the
pipeline reads: `L01 Material Price Group Key`, `Inv Net Amt`, `Material`.
`none` models a missing (NaN) cell. -/
structure LineItem where
  key : Option String
  net : Option ℚ
  material : Option ℚ
deriving DecidableEq, Repr

/-- The inputs of one job as `process_excel_file` (lines 35-136) sees them.
`sheet` holds the raw rows of the spreadsheet as cell texts and is used for
header location; `items` are the data rows parsed under the located header.
`pdfPresent` is the `os.path.exists` test for the companion PDF.  `pdfTotal`
is the result of `extract_invoice_amount`: `some v` when the regex on the
first-page text matches an amount `v`, `none` modelling the `ValueError`.
`template` is the list of non-empty first-row header cells of the template
sheet.  `master` holds the master workbook rows as `(UPC, Item_Number)`
string pairs, `none` modelling any exception while reading the file. -/
structure Job where
  sheet : List (List String)
  items : List LineItem
  pdfPresent : Bool
  pdfTotal : Option ℚ
  template : List String
  master : Option (List (String × String))
deriving Repr

/-! ## Header locator (lines 39-45) -/

/-- The three required column names of line 41. -/
def requiredCols : List String :=
  ["L01 Material Price Group Key", "Inv Net Amt", "Material"]

/-- The column set produced by `pd.read_excel(path, skiprows=skip)`: the first
row after skipping `skip` rows becomes the header (an empty remainder gives an
empty frame with no columns). -/
def columnsAt (sheet : List (List String)) (skip : Nat) : List String :=
  (sheet.drop skip).headD []

/-- Line 41: the frame has all three required columns. -/
def hasRequired (cols : List String) : Bool :=
  requiredCols.all (fun c => cols.contains c)

/-- Lines 39-45: try `skiprows` 0..4 in increasing order, keeping the first
attempt whose columns contain the three required names; `none` models the
`for`-`else` abort path (print and return). -/
def findHeaderSkip (sheet : List (List String)) : Option Nat :=
  (List.range 5).find? (fun k => hasRequired (columnsAt sheet k))

/-! ## Sorting (lines 48 and 70) -/

/-- The group key as the sort key of line 48 (rows with a missing key were
dropped before the sort, so the default is never consulted). -/
def keyStr (r : LineItem) : String := r.key.getD ""

/-- The net amount as the sort key of line 70; a missing amount sorts last in
the descending sort (pandas `na_position='last'`), modelled as bottom. -/
def netW (r : LineItem) : WithBot ℚ :=
  match r.net with
  | none => ⊥
  | some q => (q : WithBot ℚ)

/-- String order as the lexicographic order on the character lists; this is
the order `sort_values` uses on the key column. -/
def strLE (a b : String) : Prop := a.data ≤ b.data

instance : DecidableRel strLE :=
  fun a b => inferInstanceAs (Decidable (a.data ≤ b.data))

instance : IsTotal String strLE := ⟨fun a b => le_total a.data b.data⟩

instance : IsTrans String strLE := ⟨fun _ _ _ h h2 => le_trans h h2⟩

/-- Ordering of `df.sort_values(by='L01 Material Price Group Key')`, line 48:
ascending on the group key. -/
def RKey (a b : LineItem) : Prop := strLE (keyStr a) (keyStr b)

/-- Ordering of `df.sort_values(by='Inv Net Amt', ascending=False)`, line 70:
descending on the net amount, missing amounts last. -/
def RNet (a b : LineItem) : Prop := netW b ≤ netW a

instance : DecidableRel RKey :=
  fun a b => inferInstanceAs (Decidable (strLE (keyStr a) (keyStr b)))

instance : DecidableRel RNet :=
  fun a b => inferInstanceAs (Decidable (netW b ≤ netW a))

instance : IsTotal LineItem RKey :=
  ⟨fun a b => le_total (keyStr a).data (keyStr b).data⟩

instance : IsTrans LineItem RKey := ⟨fun _ _ _ h h2 => le_trans h h2⟩

instance : IsTotal LineItem RNet := ⟨fun a b => le_total (netW b) (netW a)⟩

instance : IsTrans LineItem RNet := ⟨fun _ _ _ h h2 => le_trans h2 h⟩

/-- Lines 47-48: drop rows with a missing group key, then sort by the key. -/
def dfRows (items : List LineItem) : List LineItem :=
  (items.filter (fun r => r.key.isSome)).insertionSort RKey

/-! ## Grouping and allocation (lines 66-71) -/

/-- The distinct group keys in ascending order, the order `groupby`
(with its default `sort=True`) produces groups in. -/
def groupKeys (df : List LineItem) : List String :=
  ((df.filterMap (fun r => r.key)).dedup).insertionSort strLE

/-- Line 66: the per-group sum of `Inv Net Amt`.  pandas `sum` skips missing
(NaN) values, so a missing net amount contributes zero. -/
def groupSum (df : List LineItem) (k : String) : ℚ :=
  ((df.filter (fun r => r.key == some k)).map (fun r => r.net.getD 0)).sum

/-- Line 66: `groupby(key).agg({'Inv Net Amt': 'sum'})`, keys ascending. -/
def grouped (df : List LineItem) : List (String × ℚ) :=
  (groupKeys df).map (fun k => (k, groupSum df k))

/-- Line 67 denominator: `grouped['Inv Net Amt'].sum()`. -/
def groupedTotal (df : List LineItem) : ℚ :=
  ((grouped df).map (fun p => p.2)).sum

/-- Line 67: `group sum / total`.  A float division by a zero total yields NaN
or an infinity, never an exception; every such non-finite result is modelled
as `none` (undefined). -/
def percentage (total s : ℚ) : Option ℚ :=
  if total = 0 then none else some (s / total)

/-- Line 70 with the `.first()` semantics: sort by net amount descending and
take, per group, the first non-missing material (`groupby(...).first()` skips
null entries). -/
def topMaterialOf (df : List LineItem) (k : String) : Option ℚ :=
  ((df.insertionSort RNet).filter (fun r => r.key == some k)).findSome?
    (fun r => r.material)

/-- Lines 66-71: the merged frame `final_df`, one entry per group key in
ascending key order: the key, the allocated amount (percentage times the
invoice total, line 68), and the representative material merged in from
`top_materials` (line 71). -/
def finalGroups (df : List LineItem) (totalDue : ℚ) :
    List (String × Option ℚ × Option ℚ) :=
  (grouped df).map (fun p =>
    (p.1, (percentage (groupedTotal df) p.2).map (fun x => x * totalDue),
      topMaterialOf df p.1))

/-! ## Template binding (lines 74-86) -/

/-- Python `headers.index(name)`: the first position of `name`, the
`ValueError` on absence modelled as `none`. -/
def headerIndex (headers : List String) (name : String) : Option Nat :=
  headers.findIdx? (fun h => h == name)

/-- Lines 79-86: resolve the four required template columns; any missing name
aborts (the caught `ValueError`). -/
def resolveIndices (headers : List String) : Option (Nat × Nat × Nat × Nat) :=
  match headerIndex headers "Item_Number", headerIndex headers "Extended_Amount",
      headerIndex headers "UPC_Number", headerIndex headers "Quantity" with
  | some mi, some ai, some ui, some qi => some (mi, ai, ui, qi)
  | _, _, _, _ => none

/-! ## Row building (lines 89-96) -/

/-- Python `str(int(x))`: truncate toward zero, then print the integer. -/
def pyInt (q : ℚ) : Int := if 0 ≤ q then ⌊q⌋ else ⌈q⌉

def pyIntStr (q : ℚ) : String := toString (pyInt q)

/-- Python `round(x, 2)` modelled over `ℚ`: round `100 * x` to the nearest
integer and divide back.  (Mathlib `round` breaks ties upward; CPython breaks
float ties to even — no claim settled here hinges on exact-tie inputs.) -/
def round2 (q : ℚ) : ℚ := ((round (100 * q) : ℤ) : ℚ) / 100

/-- Lines 93-95: a blank row of `n` cells with the material string at
`mi` and the rounded allocated amount at `ai`. -/
def buildRow (n mi ai : Nat) (m a : ℚ) : List Cell :=
  (((List.replicate n blank).set mi (Cell.str (pyIntStr m))).set ai
    (Cell.num (round2 a)))

/-- Lines 89-96: one output row per merged group, skipping any group whose
material or allocated amount is missing (`pd.isna`). -/
def buildDataRows (final : List (String × Option ℚ × Option ℚ))
    (n mi ai : Nat) : List (List Cell) :=
  final.filterMap (fun g =>
    match g.2.2, g.2.1 with
    | some m, some a => some (buildRow n mi ai m a)
    | _, _ => none)

/-! ## Master lookup (lines 99-118) -/

/-- Python `str.strip()`: remove leading and trailing whitespace from a
character list. -/
def stripChars (cs : List Char) : List Char :=
  (((cs.dropWhile (fun c => c.isWhitespace)).reverse.dropWhile
    (fun c => c.isWhitespace)).reverse)

def pyStrip (s : String) : String := String.mk (stripChars s.data)

/-- Lines 101-102: coerce both master columns to stripped strings. -/
def trimPair (p : String × String) : String × String := (pyStrip p.1, pyStrip p.2)

/-- Keeps the first row for each item number, tracking the item numbers
already seen. -/
def dedupAux : List String → List (String × String) → List (String × String)
  | _, [] => []
  | seen, p :: ps =>
    if p.2 ∈ seen then dedupAux seen ps
    else p :: dedupAux (p.2 :: seen) ps

/-- Line 103: `drop_duplicates(subset='Item_Number', keep='first')`. -/
def dedupByItem (l : List (String × String)) : List (String × String) :=
  dedupAux [] l

/-- Line 104: the dict `upc_lookup` built by zipping the deduplicated item
numbers with their UPC strings. -/
def masterLookup (tbl : List (String × String)) (item : String) : Option String :=
  ((dedupByItem (tbl.map trimPair)).find? (fun p => p.2 == item)).map
    (fun p => p.1)

/-- Python `str.zfill(w)` on a character list: left-pad with zeros to width
`w`, keeping a leading sign character in front; a list of length `w` or more
is unchanged. -/
def zfillChars (cs : List Char) (w : Nat) : List Char :=
  if w ≤ cs.length then cs
  else
    match cs with
    | c :: rest =>
      if c = '-' || c = '+' then
        c :: (List.replicate (w - cs.length) '0' ++ rest)
      else List.replicate (w - cs.length) '0' ++ cs
    | [] => List.replicate w '0'

/-- Python `str.zfill(w)` (line 111). -/
def zfill (s : String) (w : Nat) : String := String.mk (zfillChars s.data w)

/-- Python `str(...)` applied to a cell value (line 107). -/
def cellStr : Cell → String
  | Cell.str s => s
  | Cell.num q => toString q
  | Cell.int n => toString n

/-- Lines 106-114: per output row, look the trimmed item-number cell up in the
master dict with default `'NA'`; a result other than the literal `'NA'` is
zero-filled to width 12 and wrapped as the text-forcing `="..."` formula,
otherwise the cell becomes the literal `'NA'`. -/
def mapRowUPC (lookup : String → Option String) (mi ui : Nat)
    (row : List Cell) : List Cell :=
  let item := pyStrip (cellStr (row.getD mi blank))
  let upcValue := (lookup item).getD "NA"
  if upcValue != "NA" then
    row.set ui (Cell.str ("=\"" ++ zfill upcValue 12 ++ "\""))
  else
    row.set ui (Cell.str "NA")

/-- Lines 99-118: the whole master-mapping step.  A failure to read the master
file is caught (lines 117-118) and leaves every row untouched. -/
def applyMaster (master : Option (List (String × String))) (mi ui : Nat)
    (rows : List (List Cell)) : List (List Cell) :=
  match master with
  | none => rows
  | some tbl => rows.map (mapRowUPC (masterLookup tbl) mi ui)

/-! ## Quantity, padding, serialization (lines 120-136) -/

/-- Python `row[material_index] not in [None, '', 'NA']` on a cell value. -/
def isPopulated : Cell → Bool
  | Cell.str s => !(s == "" || s == "NA")
  | _ => true

/-- Lines 120-125: quantity 1 for rows with a populated item-number cell,
blank quantity otherwise. -/
def applyQuantity (mi qi : Nat) (rows : List (List Cell)) : List (List Cell) :=
  rows.map (fun row =>
    if isPopulated (row.getD mi blank) then row.set qi (Cell.int 1)
    else row.set qi (Cell.str ""))

/-- Lines 127-129: append blank rows of the template width until at least 100
rows exist. -/
def padRows (n : Nat) (rows : List (List Cell)) : List (List Cell) :=
  rows ++ List.replicate (100 - rows.length) (List.replicate n blank)

/-- The serialized CSV contents: the template header names and the rows. -/
abbrev Output := List String × List (List Cell)

/-- Lines 35-136, `process_excel_file`: the full pipeline.  `none` is the
print-and-return abort (no CSV written); `some` is a written CSV. -/
def process_excel_file (job : Job) : Option Output :=
  match findHeaderSkip job.sheet with
  | none => none
  | some _ =>
    let df := dfRows job.items
    if job.pdfPresent = false then none
    else
      match job.pdfTotal with
      | none => none
      | some totalDue =>
        match resolveIndices job.template with
        | none => none
        | some (mi, ai, ui, qi) =>
          let n := job.template.length
          let rows := buildDataRows (finalGroups df totalDue) n mi ai
          let rows := applyMaster job.master mi ui rows
          let rows := applyQuantity mi qi rows
          some (job.template, padRows n rows)

/-- An upload request to the `/process-invoice` endpoint: the two multipart
fields and the job contents the saved files parse to. -/
structure UploadRequest where
  hasExcel : Bool
  hasPdf : Bool
  job : Job
deriving Repr

/-- An HTTP-style response: a status code and the JSON message text. -/
structure HttpResponse where
  status : Nat
  body : String
deriving DecidableEq, Repr

/-- Lines 138-166, `process_invoice`: missing upload fields give a 400; the
pipeline is then invoked and, since its four job-level failure paths return
`None` rather than raise, the endpoint answers 200 regardless of whether a
CSV was produced.  (The 500 branch of line 166 fires only for exceptions that
escape `process_excel_file`, such as unreadable files, which are outside this
model.) -/
def process_invoice (req : UploadRequest) : HttpResponse × Option Output :=
  if req.hasExcel = false || req.hasPdf = false then
    (⟨400, "Excel and PDF files are required!"⟩, none)
  else
    (⟨200, "Files processed successfully!"⟩, process_excel_file req.job)

/-! ## Specification-side definitions

These are written from the words of the spec, for comparison with the
code-side definitions above. -/

/-- Written from the spec wording for the representative material: the
earliest row (in the order of the given list) attaining the maximal net
amount, a missing net amount counting as smallest.  Recursion keeps the
earlier row on ties. -/
def firstMaxRow : List LineItem → Option LineItem
  | [] => none
  | x :: xs =>
    match firstMaxRow xs with
    | none => some x
    | some m => if netW m ≤ netW x then some x else some m

/-- The number of real (non-padding) output rows of a job: the merged groups
whose allocated amount and material are both present. -/
def realRowCount (job : Job) : Nat :=
  ((finalGroups (dfRows job.items) (job.pdfTotal.getD 0)).filter
    (fun g => g.2.1.isSome && g.2.2.isSome)).length

/-! ## Concrete inputs used by witnesses and counterexamples -/

/-- A line item with all three columns present except possibly the material. -/
def li (k : String) (n : ℚ) (m : Option ℚ) : LineItem := ⟨some k, some n, m⟩

/-- A template whose four required headers sit at positions 0..3. -/
def templ4 : List String := ["Item_Number", "Extended_Amount", "UPC_Number", "Quantity"]

/-- A sheet whose required columns appear at skip offset 1. -/
def sheetOk : List (List String) :=
  [["junk"], ["L01 Material Price Group Key", "Inv Net Amt", "Material"]]

/-- A sheet with no required columns at any skip offset. -/
def sheetBad : List (List String) := [["x"], ["y"]]

/-- The end-to-end example job of the spec scenario: groups A (nets 100 and
300, material 6 on the 300 row) and B (net 600, material 7), invoice total
1000, master mapping item 6 to UPC 12345. -/
def exJob : Job :=
  { sheet := sheetOk
    items := [li "A" 100 (some 5), li "A" 300 (some 6), li "B" 600 (some 7)]
    pdfPresent := true
    pdfTotal := some 1000
    template := templ4
    master := some [("12345", "6"), ("NA", "5")] }

/-- The same job with the master file unreadable. -/
def exJobNoMaster : Job :=
  { exJob with master := none }

/-- A job whose spreadsheet has no recognisable header row. -/
def exJobBadSheet : Job :=
  { exJob with sheet := sheetBad }

/-- An upload request with both files present but an unusable spreadsheet. -/
def exReqFail : UploadRequest :=
  { hasExcel := true, hasPdf := true, job := exJobBadSheet }

/-- Seven equal groups: allocation of an invoice total of 1 gives each group
one seventh, which rounds to 0.14. -/
def ex7 : List LineItem :=
  ["A", "B", "C", "D", "E", "F", "G"].map (fun k => li k 1 (some 1))

/-- One group whose rows sum to zero. -/
def exZeroItems : List LineItem := [li "A" 0 (some 1)]

/-- Group A where the maximum-net row has a missing material and the
lower-net row carries material 7. -/
def items4 : List LineItem := [li "A" 10 none, li "A" 5 (some 7)]

/-- A master table mapping item 1 to the literal string NA and item 2 to a
thirteen-character code. -/
def tbl6 : List (String × String) := [("NA", "1"), ("1234567890123", "2")]

/-- Two one-column-populated rows with items 1 and 2 (template width 4). -/
def rows6 : List (List Cell) :=
  [[Cell.str "1", blank, blank, blank], [Cell.str "2", blank, blank, blank]]

/-! ## Theorems -/

/-- C7: if the three required columns are present at skip offset `k ≤ 4` and
at no smaller offset, the header locator selects exactly offset `k`; and if
no offset in 0..4 exhibits them, the whole job aborts with no output (the
function returns normally, so the caller is not crashed). -/
theorem c7_header_locator :
    (∀ (sheet : List (List String)) (k : Nat), k ≤ 4 →
        hasRequired (columnsAt sheet k) = true →
        (∀ j, j < k → hasRequired (columnsAt sheet j) = false) →
        findHeaderSkip sheet = some k) ∧
    (∀ job : Job, (∀ j, j ≤ 4 → hasRequired (columnsAt job.sheet j) = false) →
        process_excel_file job = none) := by
  constructor
  · intro sheet k hk hp hmin
    unfold findHeaderSkip
    have h5 : List.range 5 = [0, 1, 2, 3, 4] := rfl
    rw [h5]
    interval_cases k <;> simp_all [List.find?]
  · intro job hall
    have hnone : findHeaderSkip job.sheet = none := by
      unfold findHeaderSkip
      have h5 : List.range 5 = [0, 1, 2, 3, 4] := rfl
      rw [h5]
      simp [List.find?, hall 0 (by omega), hall 1 (by omega), hall 2 (by omega),
        hall 3 (by omega), hall 4 (by omega)]
    unfold process_excel_file
    rw [hnone]

/-- Witness for C7 at concrete inputs: the example sheet has its header row
at offset 1 and is located there; the bad sheet aborts the whole job. -/
theorem c7_witness :
    findHeaderSkip sheetOk = some 1 ∧ process_excel_file exJobBadSheet = none := by
  constructor
  · exact c7_header_locator.1 sheetOk 1 (by omega) (by decide) (by decide)
  · exact c7_header_locator.2 exJobBadSheet (by decide)

/-- C3 (amended): when the total of the group net sums is zero, the division
of line 67 raises no exception but produces undefined (non-finite) values,
modelled as `none`: every allocated amount of the merged frame is undefined,
not zero. -/
theorem c3_zero_total_allocations_undefined (items : List LineItem) (T : ℚ)
    (h : groupedTotal (dfRows items) = 0) :
    ∀ g ∈ finalGroups (dfRows items) T, g.2.1 = none := by
  intro g hg
  unfold finalGroups at hg
  obtain ⟨p, hp, rfl⟩ := List.mem_map.1 hg
  simp [percentage, h]

/-- C3 counterexample: for a single group of net sum zero, the group
percentage and allocated amount come out as the undefined value, not as the
zero the claim promises. -/
theorem c3_counterexample :
    groupedTotal (dfRows exZeroItems) = 0 ∧
    percentage (groupedTotal (dfRows exZeroItems))
      (groupSum (dfRows exZeroItems) "A") = none ∧
    (finalGroups (dfRows exZeroItems) 5).map (fun g => g.2.1) = [none] ∧
    (finalGroups (dfRows exZeroItems) 5).map (fun g => g.2.1) ≠ [some 0] := by
  refine ⟨?_, ?_, ?_, ?_⟩ <;>
    norm_num +decide [groupedTotal, grouped, groupKeys, groupSum, dfRows,
      exZeroItems, li, List.insertionSort, List.orderedInsert, RKey, strLE,
      keyStr, List.dedup, List.pwFilter, finalGroups, percentage,
      topMaterialOf, RNet, netW]

/-- Witness for C3 at a concrete input: the zero-sum job has a group and its
allocated amount is undefined. -/
theorem c3_witness :
    ∃ g ∈ finalGroups (dfRows exZeroItems) 5, g.2.1 = none := by
  have hz : groupedTotal (dfRows exZeroItems) = 0 := by
    norm_num +decide [groupedTotal, grouped, groupKeys, groupSum, dfRows,
      exZeroItems, li, List.insertionSort, List.orderedInsert, RKey, strLE,
      keyStr, List.dedup, List.pwFilter]
  have hne : finalGroups (dfRows exZeroItems) 5 ≠ [] := by
    simp [finalGroups, grouped, groupKeys, dfRows, exZeroItems, li,
      List.insertionSort, List.orderedInsert, List.dedup, List.pwFilter]
  obtain ⟨g, hg⟩ := List.exists_mem_of_ne_nil _ hne
  exact ⟨g, hg, c3_zero_total_allocations_undefined exZeroItems 5 hz g hg⟩

/-- C2 (amended): the four job-level failure kinds all return `None` from
the pipeline rather than raising, so the upload operation answers success
(HTTP 200) with no CSV written; the 500 branch is reached only by exceptions
outside these paths. -/
theorem c2_swallowed_failure (req : UploadRequest) (he : req.hasExcel = true)
    (hp : req.hasPdf = true) (hfail : process_excel_file req.job = none) :
    process_invoice req = (⟨200, "Files processed successfully!"⟩, none) := by
  unfold process_invoice
  rw [he, hp]
  simp [hfail]

/-- C2 counterexample: a job-level failure (no header row found) for which
the upload operation reports success 200, not a server error. -/
theorem c2_counterexample :
    process_excel_file exReqFail.job = none ∧
    (process_invoice exReqFail).1.status = 200 ∧
    (process_invoice exReqFail).1.status ≠ 500 := by
  have h : process_excel_file exReqFail.job = none := by decide
  refine ⟨h, ?_, ?_⟩ <;> simp [process_invoice, exReqFail, exJobBadSheet, h]

/-- Witness for C2 at a concrete input. -/
theorem c2_witness :
    process_invoice exReqFail = (⟨200, "Files processed successfully!"⟩, none) :=
  c2_swallowed_failure exReqFail rfl rfl (by decide)

/-- Rounding to two decimals moves a rational by at most half a cent. -/
lemma round2_abs_sub (q : ℚ) : |round2 q - q| ≤ 1 / 200 := by
  have h := abs_sub_round (100 * q)
  rw [abs_sub_comm] at h
  have heq : round2 q - q = (((round (100 * q) : ℤ) : ℚ) - 100 * q) / 100 := by
    unfold round2; ring
  rw [heq, abs_div, abs_of_pos (by norm_num : (0:ℚ) < 100)]
  linarith

/-- Summing the per-element roundings moves a list sum by at most half a cent
per element. -/
lemma sum_round2_sub_le (l : List ℚ) :
    |(l.map round2).sum - l.sum| ≤ l.length * (1 / 200) := by
  induction l with
  | nil => simp
  | cons a t ih =>
    have h1 := round2_abs_sub a
    simp only [List.map_cons, List.sum_cons, List.length_cons]
    have hc : ((t.length + 1 : ℕ) : ℚ) = (t.length : ℚ) + 1 := by push_cast; ring
    rw [hc]
    have heq : (round2 a + (t.map round2).sum) - (a + t.sum)
        = (round2 a - a) + ((t.map round2).sum - t.sum) := by ring
    rw [heq]
    calc |(round2 a - a) + ((t.map round2).sum - t.sum)|
        ≤ |round2 a - a| + |(t.map round2).sum - t.sum| := abs_add _ _
      _ ≤ 1 / 200 + t.length * (1 / 200) := add_le_add h1 ih
      _ = ((t.length : ℚ) + 1) * (1 / 200) := by ring

/-- C1 (amended): for a nonzero total of net amounts the unrounded allocated
amounts sum exactly to the invoice total, and the sum of the per-group
rounded amounts differs from the rounded total by at most half a cent per
group plus half a cent (not by at most one cent, which fails for three or
more groups). -/
theorem c1_allocated_amounts_sum (items : List LineItem) (T : ℚ)
    (hS : groupedTotal (dfRows items) ≠ 0) :
    ((finalGroups (dfRows items) T).map (fun g => g.2.1.getD 0)).sum = T ∧
    |((finalGroups (dfRows items) T).map (fun g => round2 (g.2.1.getD 0))).sum
        - round2 T|
      ≤ (((finalGroups (dfRows items) T).length : ℚ) + 1) * (1 / 200) := by
  set df := dfRows items with hdf
  set S := groupedTotal df with hSdef
  have hmap : (finalGroups df T).map (fun g => g.2.1.getD 0)
      = (grouped df).map (fun p => p.2 * (T / S)) := by
    unfold finalGroups
    rw [List.map_map]
    apply List.map_congr_left
    intro p hp
    have hpc : percentage S p.2 = some (p.2 / S) := by
      simp [percentage, hS]
    simp only [Function.comp_apply, hpc, Option.map_some', Option.getD_some]
    ring
  have h1 : ((finalGroups df T).map (fun g => g.2.1.getD 0)).sum = T := by
    rw [hmap, List.sum_map_mul_right]
    have hS2 : ((grouped df).map (fun p => p.2)).sum = S := rfl
    rw [hS2]
    field_simp
  refine ⟨h1, ?_⟩
  set l := (finalGroups df T).map (fun g => g.2.1.getD 0) with hl
  have hmm : (finalGroups df T).map (fun g => round2 (g.2.1.getD 0))
      = l.map round2 := by
    rw [hl, List.map_map]
    rfl
  rw [hmm]
  have hlen : l.length = (finalGroups df T).length := by rw [hl]; simp
  have hT : l.sum = T := h1
  have hlast : |l.sum - round2 T| ≤ 1 / 200 := by
    rw [hT, abs_sub_comm]
    exact round2_abs_sub T
  calc |(l.map round2).sum - round2 T|
      = |((l.map round2).sum - l.sum) + (l.sum - round2 T)| := by
        rw [sub_add_sub_cancel]
    _ ≤ |(l.map round2).sum - l.sum| + |l.sum - round2 T| := abs_add _ _
    _ ≤ l.length * (1 / 200) + 1 / 200 :=
        add_le_add (sum_round2_sub_le l) hlast
    _ = ((l.length : ℚ) + 1) * (1 / 200) := by ring
    _ = (((finalGroups df T).length : ℚ) + 1) * (1 / 200) := by rw [hlen]

/-- C1 counterexample: seven equal groups of an invoice total of one unit
each allocate one seventh, rounding to 0.14; the rounded amounts sum to 0.98,
which misses the rounded total 1.00 by two cents, beyond the one-cent
aggregate tolerance the claim states. -/
theorem c1_counterexample :
    groupedTotal (dfRows ex7) ≠ 0 ∧
    round2 (1 : ℚ) = 1 ∧
    ((finalGroups (dfRows ex7) 1).map (fun g => round2 (g.2.1.getD 0))).sum
      = 49 / 50 ∧
    ¬ (|((finalGroups (dfRows ex7) 1).map
          (fun g => round2 (g.2.1.getD 0))).sum - round2 (1 : ℚ)|
        ≤ 1 / 100) := by
  have hsum : ((finalGroups (dfRows ex7) 1).map
      (fun g => round2 (g.2.1.getD 0))).sum = 49 / 50 := by
    norm_num +decide [finalGroups, grouped, groupKeys, groupSum, groupedTotal,
      percentage, topMaterialOf, dfRows, ex7, li, List.insertionSort,
      List.orderedInsert, RKey, RNet, strLE, keyStr, netW, List.dedup,
      List.pwFilter, round2, round_eq]
  have htot : groupedTotal (dfRows ex7) = 7 := by
    norm_num +decide [groupedTotal, grouped, groupKeys, groupSum, dfRows, ex7,
      li, List.insertionSort, List.orderedInsert, RKey, strLE, keyStr,
      List.dedup, List.pwFilter]
  have hr1 : round2 (1 : ℚ) = 1 := by norm_num [round2, round_eq]
  refine ⟨by rw [htot]; norm_num, hr1, hsum, ?_⟩
  rw [hsum, hr1]
  have habs : |(49 : ℚ)/50 - 1| = 1/50 := by
    rw [abs_sub_comm, show (1 : ℚ) - 49/50 = 1/50 by norm_num]
    exact abs_of_nonneg (by norm_num)
  rw [habs]
  norm_num

/-- Witness for C1 at a concrete input: for the seven-group job the amended
bound holds (the unrounded sum is exactly the total and the rounded sum is
within eight half-cents). -/
theorem c1_witness :
    ((finalGroups (dfRows ex7) 1).map (fun g => g.2.1.getD 0)).sum = 1 ∧
    |((finalGroups (dfRows ex7) 1).map (fun g => round2 (g.2.1.getD 0))).sum
        - round2 (1 : ℚ)|
      ≤ (((finalGroups (dfRows ex7) 1).length : ℚ) + 1) * (1 / 200) :=
  c1_allocated_amounts_sum ex7 1 (by
    norm_num +decide [groupedTotal, grouped, groupKeys, groupSum, dfRows, ex7,
      li, List.insertionSort, List.orderedInsert, RKey, strLE, keyStr,
      List.dedup, List.pwFilter])

/-- Missing net amounts contribute zero: dropping them from a list leaves the
defaulted sum unchanged. -/
lemma sum_net_getD_filter (l : List LineItem) :
    ((l.filter (fun r => r.net.isSome)).map (fun r => r.net.getD 0)).sum
      = (l.map (fun r => r.net.getD 0)).sum := by
  induction l with
  | nil => simp
  | cons a t ih =>
    cases ha : a.net with
    | none => simp [List.filter_cons, ha, ih]
    | some q => simp [List.filter_cons, ha, ih]

/-- C10: before grouping exactly the rows with a missing group key are
dropped (the cleaned frame is a permutation of that filter), and a group sum
is unchanged when rows with a missing net amount are discarded — such rows
are retained but contribute zero. -/
theorem c10_missing_values (items : List LineItem) (k : String) :
    (dfRows items).Perm (items.filter (fun r => r.key.isSome)) ∧
    groupSum (dfRows items) k
      = ((items.filter (fun r => r.key == some k && r.net.isSome)).map
          (fun r => r.net.getD 0)).sum := by
  constructor
  · exact List.perm_insertionSort RKey _
  · unfold groupSum
    have hperm : ((dfRows items).filter (fun r => r.key == some k)).Perm
        ((items.filter (fun r => r.key.isSome)).filter
          (fun r => r.key == some k)) :=
      (List.perm_insertionSort RKey _).filter _
    have h1 : (((dfRows items).filter (fun r => r.key == some k)).map
        (fun r => r.net.getD 0)).sum
        = (((items.filter (fun r => r.key.isSome)).filter
            (fun r => r.key == some k)).map (fun r => r.net.getD 0)).sum :=
      (hperm.map _).sum_eq
    rw [h1, List.filter_filter]
    have hcongr : items.filter (fun a => (a.key == some k) && a.key.isSome)
        = items.filter (fun r => r.key == some k) := by
      apply List.filter_congr
      intro a _
      cases ha : a.key <;> simp [ha]
    rw [hcongr]
    have hsplit : items.filter (fun r => r.key == some k && r.net.isSome)
        = (items.filter (fun r => r.key == some k)).filter
            (fun r => r.net.isSome) := by
      rw [List.filter_filter]
      apply List.filter_congr
      intro a _
      exact Bool.and_comm _ _
    rw [hsplit, sum_net_getD_filter]

/-- Every element of a takeWhile satisfies the predicate. -/
lemma mem_takeWhile_eq_true {α : Type*} (p : α → Bool) :
    ∀ (l : List α) (a : α), a ∈ l.takeWhile p → p a = true := by
  intro l
  induction l with
  | nil => intro a h; simp [List.takeWhile] at h
  | cons x xs ih =>
    intro a h
    rw [List.takeWhile_cons] at h
    by_cases hx : p x
    · rw [if_pos hx] at h
      rcases List.mem_cons.1 h with rfl | h2
      · exact hx
      · exact ih a h2
    · rw [if_neg hx] at h
      simp at h

/-- The stable key sort commutes with filtering by a predicate whose
satisfying rows are mutually tied in the key order. -/
lemma filter_insertionSort_RKey (q : LineItem → Bool)
    (hq : ∀ a b, q a = true → q b = true → RKey a b) :
    ∀ l : List LineItem, (List.insertionSort RKey l).filter q = l.filter q := by
  intro l
  induction l with
  | nil => rfl
  | cons x xs ih =>
    rw [List.insertionSort, List.orderedInsert_eq_take_drop, List.filter_append]
    have hsplit : (List.insertionSort RKey xs).filter q
        = ((List.insertionSort RKey xs).takeWhile
            (fun b => decide ¬ (RKey x b))).filter q
          ++ ((List.insertionSort RKey xs).dropWhile
            (fun b => decide ¬ (RKey x b))).filter q := by
      rw [← List.filter_append, List.takeWhile_append_dropWhile]
    by_cases hx : q x = true
    · have hA : ((List.insertionSort RKey xs).takeWhile
          (fun b => decide ¬ (RKey x b))).filter q = [] := by
        rw [List.filter_eq_nil_iff]
        intro b hb hqb
        have hpred := mem_takeWhile_eq_true _ _ _ hb
        exact (of_decide_eq_true hpred) (hq x b hx hqb)
      rw [hA, List.nil_append, List.filter_cons_of_pos hx,
        List.filter_cons_of_pos hx]
      rw [hA, List.nil_append] at hsplit
      rw [← hsplit, ih]
    · have hxf : q x = false := by simpa using hx
      rw [List.filter_cons_of_neg (by simp [hxf]),
        List.filter_cons_of_neg (by simp [hxf])]
      rw [← List.filter_append, List.takeWhile_append_dropWhile, ih]

/-- `findSome?` is the first defined value: the head of the filter by
definedness, bound through the function. -/
lemma findSome?_eq_head_filter {α β : Type*} (f : α → Option β) :
    ∀ l : List α,
      l.findSome? f = ((l.filter (fun a => (f a).isSome)).head?).bind f := by
  intro l
  induction l with
  | nil => rfl
  | cons a t ih =>
    cases hf : f a with
    | none =>
      rw [List.findSome?_cons_of_isNone _ (by simp [hf]), ih]
      have : (a :: t).filter (fun a => (f a).isSome)
          = t.filter (fun a => (f a).isSome) := by
        rw [List.filter_cons_of_neg (by simp [hf])]
      rw [this]
    | some b =>
      rw [List.findSome?_cons_of_isSome _ (by simp [hf])]
      rw [List.filter_cons_of_pos (by simp [hf])]
      simp [hf]

/-- Every element remaining after dropping the strictly-greater prefix is at
most `x` in the descending net order. -/
lemma all_dropWhile_RNet (x : LineItem) (S : List LineItem)
    (hS : List.Pairwise RNet S) :
    ∀ b ∈ S.dropWhile (fun c => decide ¬ (RNet x c)), RNet x b := by
  intro b hb
  cases hBB : S.dropWhile (fun c => decide ¬ (RNet x c)) with
  | nil => rw [hBB] at hb; exact absurd hb (List.not_mem_nil b)
  | cons b0 B2 =>
    have h0 := List.head?_dropWhile_not (fun c => decide ¬ (RNet x c)) S
    rw [hBB] at h0
    simp only [List.head?_cons] at h0
    have hxb0 : RNet x b0 := by
      have := of_decide_eq_false h0
      exact not_not.mp this
    have hSB : List.Pairwise RNet (b0 :: B2) := by
      rw [← hBB]
      exact hS.sublist (List.dropWhile_sublist _)
    rw [hBB] at hb
    rcases List.mem_cons.1 hb with rfl | hb2
    · exact hxb0
    · have hb0b : RNet b0 b := (List.pairwise_cons.1 hSB).1 b hb2
      exact le_trans hb0b hxb0

/-- Head of the filtered stable descending sort: it is the earliest
(original-order) element, among those satisfying the predicate, attaining the
maximal net amount. -/
lemma head_filter_insertionSort_RNet (q : LineItem → Bool) :
    ∀ l : List LineItem,
      ((List.insertionSort RNet l).filter q).head? = firstMaxRow (l.filter q) := by
  intro l
  induction l with
  | nil => rfl
  | cons x xs ih =>
    rw [List.insertionSort, List.orderedInsert_eq_take_drop, List.filter_append]
    have hsplit : (List.insertionSort RNet xs).filter q
        = ((List.insertionSort RNet xs).takeWhile
            (fun b => decide ¬ (RNet x b))).filter q
          ++ ((List.insertionSort RNet xs).dropWhile
            (fun b => decide ¬ (RNet x b))).filter q := by
      rw [← List.filter_append, List.takeWhile_append_dropWhile]
    by_cases hx : q x = true
    · rw [List.filter_cons_of_pos hx, List.filter_cons_of_pos hx, firstMaxRow]
      cases hAq : ((List.insertionSort RNet xs).takeWhile
          (fun b => decide ¬ (RNet x b))).filter q with
      | nil =>
        rw [List.nil_append, List.head?_cons]
        have hIH : firstMaxRow (xs.filter q)
            = (((List.insertionSort RNet xs).dropWhile
                (fun b => decide ¬ (RNet x b))).filter q).head? := by
          rw [← ih, hsplit, hAq, List.nil_append]
        rw [hIH]
        cases hBq : (((List.insertionSort RNet xs).dropWhile
            (fun b => decide ¬ (RNet x b))).filter q).head? with
        | none => rfl
        | some m =>
          have hm : m ∈ ((List.insertionSort RNet xs).dropWhile
              (fun b => decide ¬ (RNet x b))).filter q := by
            cases hc : ((List.insertionSort RNet xs).dropWhile
                (fun b => decide ¬ (RNet x b))).filter q with
            | nil => rw [hc] at hBq; exact absurd hBq (by simp)
            | cons m0 t0 =>
              rw [hc] at hBq
              simp only [List.head?_cons, Option.some.injEq] at hBq
              rw [hBq]
              exact List.mem_cons_self m t0
          have hmB : m ∈ (List.insertionSort RNet xs).dropWhile
              (fun b => decide ¬ (RNet x b)) := List.mem_of_mem_filter hm
          have hRx : RNet x m :=
            all_dropWhile_RNet x (List.insertionSort RNet xs)
              (List.sorted_insertionSort RNet xs) m hmB
          have hRx2 : netW m ≤ netW x := hRx
          show some x = if netW m ≤ netW x then some x else some m
          rw [if_pos hRx2]
      | cons h t =>
        rw [List.cons_append, List.head?_cons]
        have hIH : firstMaxRow (xs.filter q) = some h := by
          rw [← ih, hsplit, hAq, List.cons_append, List.head?_cons]
        rw [hIH]
        have hhA : h ∈ (List.insertionSort RNet xs).takeWhile
            (fun b => decide ¬ (RNet x b)) :=
          List.mem_of_mem_filter (by rw [hAq]; exact List.mem_cons_self h t)
        have hpred : ¬ RNet x h :=
          of_decide_eq_true
            (mem_takeWhile_eq_true (fun b => decide ¬ (RNet x b)) _ _ hhA)
        have hpred2 : ¬ (netW h ≤ netW x) := hpred
        show some h = if netW h ≤ netW x then some x else some h
        rw [if_neg hpred2]
    · have hxf : q x = false := by simpa using hx
      rw [List.filter_cons_of_neg (by simp [hxf]),
        List.filter_cons_of_neg (by simp [hxf]),
        ← List.filter_append, List.takeWhile_append_dropWhile, ih]

/-- C4 (amended): the representative material of a group is the material of
the earliest row, in original input order, attaining the maximal net amount
among the rows of the group that carry a material (`groupby(...).first()`
skips missing materials, so a missing-material maximum row is passed over);
a group with no material-bearing rows has no representative.  The two
`sort_values` calls are modelled as stable sorts. -/
theorem c4_representative_material (items : List LineItem) (k : String) :
    topMaterialOf (dfRows items) k
      = (firstMaxRow (items.filter
          (fun r => r.key == some k && r.material.isSome))).bind
          (fun r => r.material) := by
  unfold topMaterialOf
  rw [findSome?_eq_head_filter, List.filter_filter,
    head_filter_insertionSort_RNet]
  have hq : ∀ a b : LineItem,
      (a.material.isSome && (a.key == some k)) = true →
      (b.material.isSome && (b.key == some k)) = true → RKey a b := by
    intro a b ha hb
    simp only [Bool.and_eq_true] at ha hb
    have hak : a.key = some k := by simpa using ha.2
    have hbk : b.key = some k := by simpa using hb.2
    unfold RKey keyStr
    rw [hak, hbk]
    simp only [Option.getD_some]
    exact le_refl k.data
  have hdf : (dfRows items).filter
        (fun a => a.material.isSome && (a.key == some k))
      = items.filter (fun r => r.key == some k && r.material.isSome) := by
    unfold dfRows
    rw [filter_insertionSort_RKey _ hq, List.filter_filter]
    apply List.filter_congr
    intro a _
    cases hk : a.key <;> cases hm : a.material <;> simp [hk, hm]
  rw [hdf]

/-- C4 counterexample: in a group whose maximum-net row has a missing
material, the pipeline picks the material of a lower-net row (7), while the
row with the maximum net amount has no material at all — so the
representative is not the material of the maximum-net row. -/
theorem c4_counterexample :
    topMaterialOf (dfRows items4) "A" = some 7 ∧
    (firstMaxRow (items4.filter (fun r => r.key == some "A"))).bind
        (fun r => r.material) = none := by
  constructor
  · norm_num +decide [topMaterialOf, dfRows, items4, li, List.insertionSort,
      List.orderedInsert, RNet, RKey, strLE, keyStr, netW, List.findSome?]
  · norm_num +decide [items4, li, firstMaxRow, netW]

/-- Reading a just-set position of a list. -/
lemma getD_set_self_lt {α : Type*} (l : List α) (i : Nat) (a d : α)
    (h : i < l.length) : (l.set i a).getD i d = a := by
  simp [List.getD_eq_getElem?_getD, List.getElem?_set_self h]

/-- Reading a different position of a just-set list. -/
lemma getD_set_ne {α : Type*} (l : List α) (i j : Nat) (a d : α)
    (h : i ≠ j) : (l.set i a).getD j d = l.getD j d := by
  simp [List.getD_eq_getElem?_getD, List.getElem?_set_ne h]

/-- Deduplication by item number does not change the first match for any item
not among the already-seen keys. -/
lemma dedupAux_find? (item : String) :
    ∀ (l : List (String × String)) (seen : List String), item ∉ seen →
      (dedupAux seen l).find? (fun p => p.2 == item)
        = l.find? (fun p => p.2 == item) := by
  intro l
  induction l with
  | nil => intro seen _; rfl
  | cons p ps ih =>
    intro seen hseen
    rw [dedupAux]
    by_cases hp : p.2 ∈ seen
    · rw [if_pos hp]
      have hne : (p.2 == item) = false := by
        apply beq_eq_false_iff_ne.mpr
        intro heq
        exact hseen (heq ▸ hp)
      rw [ih seen hseen]
      rw [List.find?_cons, hne]
    · rw [if_neg hp]
      rw [List.find?_cons, List.find?_cons]
      cases hpi : p.2 == item with
      | true => rfl
      | false =>
        apply ih
        intro hmem
        rcases List.mem_cons.1 hmem with rfl | h2
        · exact (beq_eq_false_iff_ne.mp hpi) rfl
        · exact hseen h2

/-- The dict built from the deduplicated master table answers exactly the
first matching row of the trimmed table. -/
lemma masterLookup_eq_find (tbl : List (String × String)) (item : String) :
    masterLookup tbl item
      = ((tbl.map trimPair).find? (fun p => p.2 == item)).map (fun p => p.1) := by
  unfold masterLookup dedupByItem
  rw [dedupAux_find? item _ [] (by simp)]

/-- Zero-filling pads to the requested width and never truncates. -/
lemma zfillChars_length (cs : List Char) (w : Nat) :
    (zfillChars cs w).length = max w cs.length := by
  cases cs with
  | nil =>
    simp only [zfillChars, List.length_nil]
    split_ifs with h
    · have hw : w = 0 := Nat.le_zero.mp h
      subst hw
      simp
    · simp [List.length_replicate]
  | cons c rest =>
    simp only [zfillChars]
    split_ifs with h hs
    · omega
    · simp only [List.length_cons, List.length_append, List.length_replicate]
      simp only [List.length_cons] at h
      omega
    · simp only [List.length_append, List.length_replicate, List.length_cons]
      simp only [List.length_cons] at h
      omega

/-- String-level version of the zero-fill length fact. -/
lemma zfill_length (s : String) (w : Nat) : (zfill s w).length = max w s.length := by
  have h1 : (zfill s w).length = (zfillChars s.data w).length := rfl
  rw [h1, zfillChars_length]
  rfl

/-- C6 (amended): the UPC dict lookup is the first occurrence of the trimmed
item number in the trimmed master table; a found code other than the literal
`NA` is written as the text-forcing formula around the code zero-filled to at
least 12 characters (a longer code is kept whole, not truncated to exactly
12); an absent item, or one whose stored code is the literal `NA`, yields the
literal cell `NA`. -/
theorem c6_upc_mapping (tbl : List (String × String)) (mi ui : Nat)
    (row : List Cell) (hlen : ui < row.length) :
    masterLookup tbl (pyStrip (cellStr (row.getD mi blank)))
        = ((tbl.map trimPair).find?
            (fun p => p.2 == pyStrip (cellStr (row.getD mi blank)))).map
            (fun p => p.1) ∧
    (∀ u, masterLookup tbl (pyStrip (cellStr (row.getD mi blank))) = some u →
      u ≠ "NA" →
      (mapRowUPC (masterLookup tbl) mi ui row).getD ui blank
          = Cell.str ("=\"" ++ zfill u 12 ++ "\"") ∧
        (zfill u 12).length = max 12 u.length) ∧
    ((masterLookup tbl (pyStrip (cellStr (row.getD mi blank))) = none ∨
      masterLookup tbl (pyStrip (cellStr (row.getD mi blank))) = some "NA") →
      (mapRowUPC (masterLookup tbl) mi ui row).getD ui blank = Cell.str "NA") := by
  refine ⟨masterLookup_eq_find tbl _, ?_, ?_⟩
  · intro u hu hne
    constructor
    · simp only [mapRowUPC]
      rw [hu]
      simp only [Option.getD_some]
      rw [if_pos (by simpa using hne)]
      exact getD_set_self_lt row ui _ blank hlen
    · exact zfill_length u 12
  · intro hcase
    simp only [mapRowUPC]
    rcases hcase with hnone | hna
    · rw [hnone]
      simp only [Option.getD_none]
      rw [if_neg (by simp)]
      exact getD_set_self_lt row ui _ blank hlen
    · rw [hna]
      simp only [Option.getD_some]
      rw [if_neg (by simp)]
      exact getD_set_self_lt row ui _ blank hlen

/-- C6 counterexample: item 1 is present in the master lookup with stored
code `NA`, yet its cell becomes the literal `NA` rather than the padded
wrapped code; item 2 is present with a thirteen-character code and its cell
keeps all thirteen characters, not exactly twelve. -/
theorem c6_counterexample :
    masterLookup tbl6 "1" = some "NA" ∧
    ((applyMaster (some tbl6) 0 2 rows6).getD 0 []).getD 2 blank
      = Cell.str "NA" ∧
    masterLookup tbl6 "2" = some "1234567890123" ∧
    ((applyMaster (some tbl6) 0 2 rows6).getD 1 []).getD 2 blank
      = Cell.str "=\"1234567890123\"" ∧
    (zfill "1234567890123" 12).length = 13 := by
  refine ⟨?_, ?_, ?_, ?_, ?_⟩ <;> decide

/-- Witness for C6 at a concrete input: item 6 maps to code 12345, which is
zero-filled to twelve characters and wrapped. -/
theorem c6_witness :
    (mapRowUPC (masterLookup [("12345", "6")]) 0 2
        [Cell.str "6", blank, blank, blank]).getD 2 blank
      = Cell.str "=\"000000012345\"" ∧
    (zfill "12345" 12).length = 12 := by
  have h := (c6_upc_mapping [("12345", "6")] 0 2
      [Cell.str "6", blank, blank, blank] (by decide)).2.1 "12345"
      (by decide) (by decide)
  constructor
  · rw [h.1]
    decide
  · rw [h.2]
    decide

/-- Inversion of a successful pipeline run: the extracted total and resolved
indices exist and the output is the padded, quantity-filled, master-mapped
row list under the template headers. -/
lemma process_some_inv (job : Job) (out : Output)
    (h : process_excel_file job = some out) :
    ∃ (T : ℚ) (mi ai ui qi : Nat),
      job.pdfTotal = some T ∧
      resolveIndices job.template = some (mi, ai, ui, qi) ∧
      out = (job.template,
        padRows job.template.length
          (applyQuantity mi qi
            (applyMaster job.master mi ui
              (buildDataRows (finalGroups (dfRows job.items) T)
                job.template.length mi ai)))) := by
  unfold process_excel_file at h
  cases hf : findHeaderSkip job.sheet with
  | none => rw [hf] at h; simp at h
  | some s =>
    rw [hf] at h
    dsimp only at h
    by_cases hp : job.pdfPresent = false
    · rw [if_pos hp] at h; simp at h
    · rw [if_neg hp] at h
      cases hT : job.pdfTotal with
      | none => rw [hT] at h; simp at h
      | some T =>
        rw [hT] at h
        dsimp only at h
        cases hR : resolveIndices job.template with
        | none => rw [hR] at h; simp at h
        | some idx =>
          obtain ⟨mi, ai, ui, qi⟩ := idx
          rw [hR] at h
          dsimp only at h
          exact ⟨T, mi, ai, ui, qi, rfl, rfl, (Option.some.inj h).symm⟩

/-- The number of rows built is the number of groups with both a material and
an allocated amount. -/
lemma buildDataRows_length (final : List (String × Option ℚ × Option ℚ))
    (n mi ai : Nat) :
    (buildDataRows final n mi ai).length
      = (final.filter (fun g => g.2.1.isSome && g.2.2.isSome)).length := by
  induction final with
  | nil => rfl
  | cons g t ih =>
    obtain ⟨k, a, m⟩ := g
    cases a <;> cases m <;>
      simp [buildDataRows, List.filterMap_cons, List.filter_cons] <;>
      simpa [buildDataRows] using ih

/-- Every built row is a `buildRow`. -/
lemma mem_buildDataRows (final : List (String × Option ℚ × Option ℚ))
    (n mi ai : Nat) (r : List Cell) (h : r ∈ buildDataRows final n mi ai) :
    ∃ m a, r = buildRow n mi ai m a := by
  unfold buildDataRows at h
  obtain ⟨g, hg, hfg⟩ := List.mem_filterMap.1 h
  obtain ⟨k, a, m⟩ := g
  cases a <;> cases m <;> simp at hfg
  exact ⟨_, _, hfg.symm⟩

/-- Built rows have the template width. -/
lemma buildRow_length (n mi ai : Nat) (m a : ℚ) :
    (buildRow n mi ai m a).length = n := by
  simp [buildRow]

/-- Cells of a built row other than the material and amount positions stay
blank. -/
lemma buildRow_getD_other (n mi ai ui : Nat) (m a : ℚ)
    (hmi : ui ≠ mi) (hai : ui ≠ ai) :
    (buildRow n mi ai m a).getD ui blank = blank := by
  unfold buildRow
  rw [getD_set_ne _ _ _ _ _ (Ne.symm hai), getD_set_ne _ _ _ _ _ (Ne.symm hmi)]
  rw [List.getD_eq_getElem?_getD, List.getElem?_replicate]
  split_ifs <;> simp

/-- The master-mapping step does not change a row's width. -/
lemma mapRowUPC_length (f : String → Option String) (mi ui : Nat)
    (row : List Cell) : (mapRowUPC f mi ui row).length = row.length := by
  simp only [mapRowUPC]
  split_ifs <;> simp

/-- The master-mapping step does not change the row count. -/
lemma applyMaster_length (m : Option (List (String × String))) (mi ui : Nat)
    (rows : List (List Cell)) : (applyMaster m mi ui rows).length = rows.length := by
  cases m <;> simp [applyMaster]

/-- The quantity step does not change the row count. -/
lemma applyQuantity_length (mi qi : Nat) (rows : List (List Cell)) :
    (applyQuantity mi qi rows).length = rows.length := by
  simp [applyQuantity]

/-- Row widths survive the master-mapping step. -/
lemma applyMaster_row_length (m : Option (List (String × String)))
    (mi ui : Nat) (rows : List (List Cell)) (n : Nat)
    (hrows : ∀ r ∈ rows, r.length = n) :
    ∀ r ∈ applyMaster m mi ui rows, r.length = n := by
  intro r hr
  cases m with
  | none => exact hrows r hr
  | some tbl =>
    simp only [applyMaster] at hr
    obtain ⟨r0, hr0, rfl⟩ := List.mem_map.1 hr
    rw [mapRowUPC_length]
    exact hrows r0 hr0

/-- Padding yields at least 100 rows and keeps the real rows in front. -/
lemma padRows_length (n : Nat) (rows : List (List Cell)) :
    (padRows n rows).length = max rows.length 100 := by
  simp [padRows]
  omega

/-- A padded row list splits into original rows and blank rows. -/
lemma mem_padRows (n : Nat) (rows : List (List Cell)) (r : List Cell)
    (h : r ∈ padRows n rows) :
    r ∈ rows ∨ r = List.replicate n blank := by
  rcases List.mem_append.1 h with h1 | h2
  · exact Or.inl h1
  · exact Or.inr (List.eq_of_mem_replicate h2)

/-- Rows past the real row count are the blank padding row. -/
lemma padRows_getD_ge (n : Nat) (rows : List (List Cell)) (i : Nat)
    (hi : rows.length ≤ i) (hlt : i < (padRows n rows).length) :
    (padRows n rows).getD i [] = List.replicate n blank := by
  unfold padRows
  rw [List.getD_eq_getElem?_getD, List.getElem?_append_right hi,
    List.getElem?_replicate]
  rw [if_pos (by simp [padRows, List.length_append] at hlt; omega)]
  rfl

/-- A list element read inside the bound is a member. -/
lemma getD_mem_of_lt {α : Type*} (l : List α) (i : Nat) (d : α)
    (h : i < l.length) : l.getD i d ∈ l := by
  rw [List.getD_eq_getElem?_getD, List.getElem?_eq_getElem h]
  exact List.getElem_mem h

/-- A located header name sits inside the list at the reported position. -/
lemma headerIndex_bound (headers : List String) (name : String) (i : Nat)
    (h : headerIndex headers name = some i) :
    i < headers.length ∧ headers.getD i "" = name := by
  unfold headerIndex at h
  rw [List.findIdx?_eq_some_iff_getElem] at h
  obtain ⟨hlt, hp, _⟩ := h
  refine ⟨hlt, ?_⟩
  rw [List.getD_eq_getElem?_getD, List.getElem?_eq_getElem hlt]
  simpa using hp

/-- Positions of distinct header names are distinct. -/
lemma headerIndex_ne (headers : List String) (n1 n2 : String) (i j : Nat)
    (h1 : headerIndex headers n1 = some i) (h2 : headerIndex headers n2 = some j)
    (hn : n1 ≠ n2) : i ≠ j := by
  intro heq
  obtain ⟨_, e1⟩ := headerIndex_bound _ _ _ h1
  obtain ⟨_, e2⟩ := headerIndex_bound _ _ _ h2
  subst heq
  exact hn (e1 ▸ e2 ▸ rfl)

/-- Inversion of a successful template binding. -/
lemma resolveIndices_inv (headers : List String) (mi ai ui qi : Nat)
    (h : resolveIndices headers = some (mi, ai, ui, qi)) :
    headerIndex headers "Item_Number" = some mi ∧
    headerIndex headers "Extended_Amount" = some ai ∧
    headerIndex headers "UPC_Number" = some ui ∧
    headerIndex headers "Quantity" = some qi := by
  unfold resolveIndices at h
  cases h1 : headerIndex headers "Item_Number" with
  | none => rw [h1] at h; simp at h
  | some i1 =>
    rw [h1] at h
    cases h2 : headerIndex headers "Extended_Amount" with
    | none => rw [h2] at h; simp at h
    | some i2 =>
      rw [h2] at h
      cases h3 : headerIndex headers "UPC_Number" with
      | none => rw [h3] at h; simp at h
      | some i3 =>
        rw [h3] at h
        cases h4 : headerIndex headers "Quantity" with
        | none => rw [h4] at h; simp at h
        | some i4 =>
          rw [h4] at h
          simp only [Option.some.injEq, Prod.mk.injEq] at h
          obtain ⟨rfl, rfl, rfl, rfl⟩ := h
          exact ⟨rfl, rfl, rfl, rfl⟩

/-- C8: every completed job emits at least 100 rows (exactly the real rows
when they exceed 100, else padded to 100), every emitted row has the template
column count, and every row past the real allocation rows is fully blank. -/
theorem c8_minimum_rows (job : Job) (out : Output)
    (h : process_excel_file job = some out) :
    100 ≤ out.2.length ∧
    out.2.length = max (realRowCount job) 100 ∧
    (∀ r ∈ out.2, r.length = job.template.length) ∧
    (∀ i, realRowCount job ≤ i → i < out.2.length →
      out.2.getD i [] = List.replicate job.template.length blank) := by
  obtain ⟨T, mi, ai, ui, qi, hT, hidx, hout⟩ := process_some_inv job out h
  subst hout
  have hlen3 : (applyQuantity mi qi
      (applyMaster job.master mi ui
        (buildDataRows (finalGroups (dfRows job.items) T)
          job.template.length mi ai))).length = realRowCount job := by
    unfold realRowCount
    rw [hT]
    simp only [Option.getD_some]
    rw [applyQuantity_length, applyMaster_length, buildDataRows_length]
  refine ⟨?_, ?_, ?_, ?_⟩
  · rw [padRows_length]
    exact le_max_right _ _
  · rw [padRows_length, hlen3]
  · intro r hr
    rcases mem_padRows _ _ _ hr with hr3 | rfl
    · simp only [applyQuantity] at hr3
      obtain ⟨r2, hr2, rfl⟩ := List.mem_map.1 hr3
      have hlen2 : r2.length = job.template.length := by
        refine applyMaster_row_length _ _ _ _ _ ?_ r2 hr2
        intro r1 hr1
        obtain ⟨m, a, rfl⟩ := mem_buildDataRows _ _ _ _ _ hr1
        exact buildRow_length _ _ _ _ _
      split_ifs <;> simp [hlen2]
    · exact List.length_replicate _ _
  · intro i hi hlt
    exact padRows_getD_ge _ _ _ (by rw [hlen3]; exact hi) hlt

/-- Witness for C8 at a concrete input: the example job emits at least 100
rows. -/
theorem c8_witness :
    100 ≤ ((process_excel_file exJob).getD ([], [])).2.length := by
  cases hh : process_excel_file exJob with
  | none =>
    have hs : (process_excel_file exJob).isSome = true := by decide
    rw [hh] at hs
    simp at hs
  | some out =>
    simp only [Option.getD_some]
    exact (c8_minimum_rows exJob out hh).1

/-- C9: in every emitted row (real or padding), the quantity cell is the
integer 1 exactly when the item-number cell is populated (not empty and not
the literal `NA`); otherwise the quantity cell is blank (the empty
string). -/
theorem c9_quantity_iff (job : Job) (out : Output) (mi ai ui qi : Nat)
    (h : process_excel_file job = some out)
    (hidx : resolveIndices job.template = some (mi, ai, ui, qi)) :
    ∀ r ∈ out.2,
      (r.getD qi blank = Cell.int 1 ↔ isPopulated (r.getD mi blank) = true) ∧
      (isPopulated (r.getD mi blank) = false →
        r.getD qi blank = Cell.str "") := by
  obtain ⟨T, mi', ai', ui', qi', hT, hidx', hout⟩ := process_some_inv job out h
  rw [hidx] at hidx'
  simp only [Option.some.injEq, Prod.mk.injEq] at hidx'
  obtain ⟨rfl, rfl, rfl, rfl⟩ := hidx'
  subst hout
  obtain ⟨hI, hE, hU, hQ⟩ := resolveIndices_inv _ _ _ _ _ hidx
  obtain ⟨hqib, _⟩ := headerIndex_bound _ _ _ hQ
  have hmq : mi ≠ qi := headerIndex_ne _ _ _ _ _ hI hQ (by decide)
  intro r hr
  rcases mem_padRows _ _ _ hr with hr3 | rfl
  · simp only [applyQuantity] at hr3
    obtain ⟨r2, hr2, rfl⟩ := List.mem_map.1 hr3
    have hlen2 : r2.length = job.template.length := by
      refine applyMaster_row_length _ _ _ _ _ ?_ r2 hr2
      intro r1 hr1
      obtain ⟨m, a, rfl⟩ := mem_buildDataRows _ _ _ _ _ hr1
      exact buildRow_length _ _ _ _ _
    by_cases hpop : isPopulated (r2.getD mi blank) = true
    · rw [if_pos hpop,
        getD_set_self_lt _ _ _ _ (by rw [hlen2]; exact hqib),
        getD_set_ne _ _ _ _ _ (Ne.symm hmq)]
      rw [List.getD_eq_getElem?_getD] at hpop
      simp [hpop]
    · rw [if_neg hpop,
        getD_set_self_lt _ _ _ _ (by rw [hlen2]; exact hqib),
        getD_set_ne _ _ _ _ _ (Ne.symm hmq)]
      rw [List.getD_eq_getElem?_getD] at hpop
      simp [hpop]
  · have hb : ∀ j : Nat,
        (List.replicate job.template.length blank).getD j blank = blank := by
      intro j
      rw [List.getD_eq_getElem?_getD, List.getElem?_replicate]
      split_ifs <;> simp
    rw [hb qi, hb mi]
    simp [blank, isPopulated]

/-- Witness for C9 at a concrete input: the first emitted row of the example
job satisfies the quantity biconditional and the otherwise-blank rule. -/
theorem c9_witness :
    ((((process_excel_file exJob).getD ([], [])).2.getD 0 []).getD 3 blank
        = Cell.int 1 ↔
      isPopulated
        ((((process_excel_file exJob).getD ([], [])).2.getD 0 []).getD 0 blank)
        = true) ∧
    (isPopulated
        ((((process_excel_file exJob).getD ([], [])).2.getD 0 []).getD 0 blank)
        = false →
      (((process_excel_file exJob).getD ([], [])).2.getD 0 []).getD 3 blank
        = Cell.str "") := by
  cases hh : process_excel_file exJob with
  | none =>
    have hs : (process_excel_file exJob).isSome = true := by decide
    rw [hh] at hs
    simp at hs
  | some out =>
    simp only [Option.getD_some]
    have hmem : out.2.getD 0 [] ∈ out.2 := by
      apply getD_mem_of_lt
      obtain ⟨T, mi, ai, ui, qi, hT, hidx, hout⟩ := process_some_inv exJob out hh
      subst hout
      rw [padRows_length]
      omega
    exact c9_quantity_iff exJob out 0 1 2 3 hh (by decide) _ hmem

/-- Whether the pipeline completes depends only on the header search, the
companion PDF, the extracted total and the template indices — not on the
master file. -/
lemma process_isSome (job : Job) :
    (process_excel_file job).isSome
      = ((findHeaderSkip job.sheet).isSome && job.pdfPresent
          && (job.pdfTotal).isSome && (resolveIndices job.template).isSome) := by
  unfold process_excel_file
  cases findHeaderSkip job.sheet with
  | none => simp
  | some s =>
    cases hp : job.pdfPresent <;>
      cases job.pdfTotal <;>
        (simp [hp]) <;>
          cases hR : resolveIndices job.template <;> simp [hp, hR]

/-- With an unreadable master file the external-code column of every emitted
row stays the blank string. -/
lemma master_none_ui_blank (job : Job) (out : Output) (mi ai ui qi : Nat)
    (hm : job.master = none) (h : process_excel_file job = some out)
    (hidx : resolveIndices job.template = some (mi, ai, ui, qi)) :
    ∀ r ∈ out.2, r.getD ui blank = Cell.str "" := by
  intro r hr
  obtain ⟨T, mi', ai', ui', qi', hT, hidx', hout⟩ := process_some_inv job out h
  rw [hidx] at hidx'
  simp only [Option.some.injEq, Prod.mk.injEq] at hidx'
  obtain ⟨rfl, rfl, rfl, rfl⟩ := hidx'
  subst hout
  rw [hm] at hr
  simp only [applyMaster] at hr
  obtain ⟨hI, hE, hU, hQ⟩ := resolveIndices_inv _ _ _ _ _ hidx
  have hum : ui ≠ mi := headerIndex_ne _ _ _ _ _ hU hI (by decide)
  have hua : ui ≠ ai := headerIndex_ne _ _ _ _ _ hU hE (by decide)
  have huq : ui ≠ qi := headerIndex_ne _ _ _ _ _ hU hQ (by decide)
  rcases mem_padRows _ _ _ hr with hr3 | rfl
  · simp only [applyQuantity] at hr3
    obtain ⟨r1, hr1, rfl⟩ := List.mem_map.1 hr3
    obtain ⟨m, a, rfl⟩ := mem_buildDataRows _ _ _ _ _ hr1
    have hb := buildRow_getD_other job.template.length mi ai ui m a hum hua
    split_ifs <;>
      rw [getD_set_ne _ _ _ _ _ (Ne.symm huq), hb] <;> rfl
  · rw [List.getD_eq_getElem?_getD, List.getElem?_replicate]
    split_ifs <;> simp [blank]

/-- C5 (amended): a master-lookup load failure does not abort the run — the
pipeline completes exactly when it would have with a readable master file —
but the external-code cells of the output are left blank (the empty string),
not set to the literal `NA`, because the mapping loop sits inside the same
caught try block as the load. -/
theorem c5_master_failure :
    (∀ job : Job,
      (process_excel_file { job with master := none }).isSome
        = (process_excel_file job).isSome) ∧
    (∀ (job : Job) (out : Output) (mi ai ui qi : Nat),
      job.master = none →
      process_excel_file job = some out →
      resolveIndices job.template = some (mi, ai, ui, qi) →
      ∀ r ∈ out.2, r.getD ui blank = Cell.str "") := by
  constructor
  · intro job
    rw [process_isSome, process_isSome]
  · intro job out mi ai ui qi hm h hidx
    exact master_none_ui_blank job out mi ai ui qi hm h hidx

/-- C5 counterexample: the example job with an unreadable master file still
completes, but the external-code cell of its first output row is the blank
string, not the literal `NA` the claim requires. -/
theorem c5_counterexample :
    (process_excel_file exJobNoMaster).isSome = true ∧
    (((process_excel_file exJobNoMaster).getD ([], [])).2.getD 0 []).getD 2
        blank = Cell.str "" ∧
    (((process_excel_file exJobNoMaster).getD ([], [])).2.getD 0 []).getD 2
        blank ≠ Cell.str "NA" := by
  have hs : (process_excel_file exJobNoMaster).isSome = true := by decide
  have hcell : (((process_excel_file exJobNoMaster).getD ([], [])).2.getD 0
      []).getD 2 blank = Cell.str "" := by
    cases hh : process_excel_file exJobNoMaster with
    | none => rw [hh] at hs; simp at hs
    | some out =>
      simp only [Option.getD_some]
      have hmem : out.2.getD 0 [] ∈ out.2 := by
        apply getD_mem_of_lt
        obtain ⟨T, mi, ai, ui, qi, hT, hidx, hout⟩ :=
          process_some_inv exJobNoMaster out hh
        subst hout
        rw [padRows_length]
        omega
      exact master_none_ui_blank exJobNoMaster out 0 1 2 3 rfl hh (by decide)
        _ hmem
  refine ⟨hs, hcell, ?_⟩
  rw [hcell]
  decide

/-- Witness for C5 at a concrete input: removing the master file from the
example job does not change completion, and the external-code cell of the
first emitted row is blank. -/
theorem c5_witness :
    (process_excel_file { exJob with master := none }).isSome
        = (process_excel_file exJob).isSome ∧
    (((process_excel_file exJobNoMaster).getD ([], [])).2.getD 0 []).getD 2
        blank = Cell.str "" := by
  refine ⟨c5_master_failure.1 exJob, ?_⟩
  cases hh : process_excel_file exJobNoMaster with
  | none =>
    have hs : (process_excel_file exJobNoMaster).isSome = true := by decide
    rw [hh] at hs
    simp at hs
  | some out =>
    simp only [Option.getD_some]
    have hmem : out.2.getD 0 [] ∈ out.2 := by
      apply getD_mem_of_lt
      obtain ⟨T, mi, ai, ui, qi, hT, hidx, hout⟩ :=
        process_some_inv exJobNoMaster out hh
      subst hout
      rw [padRows_length]
      omega
    exact c5_master_failure.2 exJobNoMaster out 0 1 2 3 rfl hh (by decide)
      _ hmem

end FlaskInvoice
